import Mathlib

/-!
Verification of the reservation command core (event-sourced CQRS service).

The development shallowly embeds the TypeScript sources:
* `src/apps/api/src/domain/resource-decider.ts` (`foldResource`, `decideResource`,
  `overlaps`, `canCancel`, `isIntervalValid`) — the pure resource aggregate;
* `src/apps/api/src/infra/event-store.ts` (`validateSequentialVersions`,
  `loadStreamFromVersion`, `loadStreamWithGapRetry`, `appendEvent`, `putSnapshot`);
* `src/apps/api/src/infra/idempotency.ts` and the request pipeline
  (`idempotencyDecision`, `runIdempotent`, `statusOf`);
* the command runner (`withVersionConflictRetries`, `applyResourceCommand`,
  `appendAndPublishRecordedEvent`, `maybeWriteSnapshot`,
  `loadStateFromSnapshotAndTail`).

Modelling conventions:
* ISO-8601 UTC timestamp strings are only ever consumed through
  `toMs = new Date(iso).getTime()`; we embed them as their integer
  millisecond values (`Ms := Int`), so `toMs` is the identity.
* Promises are embedded as values/`Except`; an injected effect (an S3 put,
  an SQS send) is embedded as an explicit outcome parameter.
* `DomainError` carries `code` and `reason`; the heterogeneous `meta`
  record is not consumed by any property below and is omitted.
-/

namespace BolivarSpec

/-- Millisecond value of an ISO-8601 UTC timestamp (`new Date(iso).getTime()`). -/
abbrev Ms := Int

/-- `new Date(isoUtc).getTime()`; timestamps are pre-converted to `Ms`,
so this is the identity. -/
def toMs (isoUtc : Ms) : Ms := isoUtc

/-- Reservation status union `"active" | "cancelled"`. -/
inductive ReservationStatus
  | active
  | cancelled
deriving DecidableEq, Repr

/-- `Reservation` record from `types.ts`. -/
structure Reservation where
  reservationId : String
  userId : String
  fromUtc : Ms
  toUtc : Ms
  status : ReservationStatus
  createdAtUtc : Ms
  cancelledAtUtc : Option Ms
deriving DecidableEq, Repr

/-- `ResourceState` record from `types.ts` (`status` is the literal "active"). -/
structure ResourceState where
  resourceId : String
  name : String
  details : String
  status : String
  reservations : List Reservation
deriving DecidableEq, Repr

/-- Actor role union `"admin" | "user"`. -/
inductive Role
  | admin
  | user
deriving DecidableEq, Repr

/-- `ResourceEvent` tagged union from `types.ts`.  `other` stands for any
event type outside the four-variant union (for example the
`ConcurrencyConflictUnresolved` telemetry event appended to resource
streams), which `foldResource` folds as identity. -/
inductive ResourceEvent
  | resourceCreated (resourceId name details : String)
  | resourceMetadataUpdated (resourceId details : String)
  | reservationAdded (resourceId reservationId userId : String)
      (fromUtc toUtc createdAtUtc : Ms)
  | resourceReservationCancelled (resourceId reservationId : String)
      (cancelledAtUtc : Ms)
  | other (eventType : String)
deriving DecidableEq, Repr

/-- `ResourceCommand` tagged union from `types.ts`, field order preserved. -/
inductive ResourceCommand
  | createResource (resourceId name details actorUserId : String) (actorRole : Role)
  | updateResourceMetadata (resourceId details actorUserId : String) (actorRole : Role)
  | createReservationInResource (resourceId reservationId : String)
      (fromUtc toUtc : Ms) (reservationUserId actorUserId : String)
      (actorRole : Role) (nowUtc : Ms)
  | cancelReservationInResource (resourceId reservationId actorUserId : String)
      (actorRole : Role) (nowUtc : Ms)
deriving DecidableEq, Repr

/-- `DomainError` (`error.code`, `error.reason`; opaque `meta` omitted). -/
structure DomainError where
  code : String
  reason : String
deriving DecidableEq, Repr

/-- `Decision<ResourceEvent>`. -/
inductive Decision
  | accepted (event : ResourceEvent)
  | rejected (error : DomainError)
deriving DecidableEq, Repr

/-- `isIntervalValid` from `resource-decider.ts`. -/
def isIntervalValid (fromUtc toUtc : Ms) : Bool :=
  decide (toMs fromUtc < toMs toUtc)

/-- `overlaps` from `resource-decider.ts`: the candidate interval intersects
an existing reservation that is still active, half-open semantics. -/
def overlaps (fromUtc toUtc : Ms) (existing : Reservation) : Bool :=
  decide (existing.status = .active) &&
  decide (toMs fromUtc < toMs existing.toUtc) &&
  decide (toMs existing.fromUtc < toMs toUtc)

/-- `canCancel` from `resource-decider.ts`. -/
def canCancel (reservation : Reservation) (actorUserId : String) (actorRole : Role) : Bool :=
  decide (actorRole = .admin) || decide (reservation.userId = actorUserId)

/-- The arrow `resource-decider.ts` maps over `state.reservations` when
folding `ResourceReservationCancelled`. -/
def cancelIfMatch (reservationId : String) (cancelledAtUtc : Ms) (r : Reservation) :
    Reservation :=
  if r.reservationId = reservationId then
    { r with status := .cancelled, cancelledAtUtc := some cancelledAtUtc }
  else r

/-- `foldResource` from `resource-decider.ts`. -/
def foldResource (state : Option ResourceState) (event : ResourceEvent) :
    Option ResourceState :=
  match event with
  | .resourceCreated resourceId name details =>
      some { resourceId := resourceId, name := name, details := details,
             status := "active", reservations := [] }
  | _ =>
    match state with
    | none => none
    | some s =>
      match event with
      | .resourceMetadataUpdated _ details => some { s with details := details }
      | .reservationAdded _ reservationId userId fromUtc toUtc createdAtUtc =>
          some { s with reservations := s.reservations ++
            [{ reservationId := reservationId, userId := userId,
               fromUtc := fromUtc, toUtc := toUtc, status := .active,
               createdAtUtc := createdAtUtc, cancelledAtUtc := none }] }
      | .resourceReservationCancelled _ reservationId cancelledAtUtc =>
          some { s with reservations :=
            s.reservations.map (cancelIfMatch reservationId cancelledAtUtc) }
      | _ => some s

/-- `decideResource` from `resource-decider.ts`. -/
def decideResource (state : Option ResourceState) (command : ResourceCommand) :
    Decision :=
  match command with
  | .createResource resourceId name details _actorUserId actorRole =>
    if actorRole ≠ .admin then
      .rejected ⟨"FORBIDDEN", "Only admin can create resources"⟩
    else
      match state with
      | some _ => .rejected ⟨"RESOURCE_ALREADY_EXISTS", "Resource stream already initialized"⟩
      | none => .accepted (.resourceCreated resourceId name details)
  | .updateResourceMetadata resourceId details _actorUserId actorRole =>
    if actorRole ≠ .admin then
      .rejected ⟨"FORBIDDEN", "Only admin can edit resource metadata"⟩
    else
      match state with
      | none => .rejected ⟨"RESOURCE_NOT_FOUND", "Resource does not exist"⟩
      | some _ => .accepted (.resourceMetadataUpdated resourceId details)
  | .createReservationInResource resourceId reservationId fromUtc toUtc
      reservationUserId _actorUserId _actorRole nowUtc =>
    match state with
    | none => .rejected ⟨"RESOURCE_NOT_FOUND", "Resource does not exist"⟩
    | some s =>
      if !(isIntervalValid fromUtc toUtc) then
        .rejected ⟨"INVALID_INTERVAL", "Reservation interval is invalid"⟩
      else if toMs fromUtc < toMs nowUtc then
        .rejected ⟨"RESERVATION_IN_PAST", "Reservation cannot start in the past"⟩
      else if s.reservations.any (fun r => overlaps fromUtc toUtc r) then
        .rejected ⟨"RESERVATION_OVERLAP", "Reservation overlaps existing active reservation"⟩
      else
        .accepted (.reservationAdded resourceId reservationId reservationUserId
          fromUtc toUtc nowUtc)
  | .cancelReservationInResource resourceId reservationId actorUserId actorRole nowUtc =>
    match state with
    | none => .rejected ⟨"RESOURCE_NOT_FOUND", "Resource does not exist"⟩
    | some s =>
      match s.reservations.find? (fun c => c.reservationId == reservationId) with
      | none => .rejected ⟨"RESERVATION_NOT_FOUND", "Reservation does not exist"⟩
      | some r =>
        if r.status = .cancelled then
          .rejected ⟨"RESERVATION_ALREADY_CANCELLED", "Reservation is already cancelled"⟩
        else if canCancel r actorUserId actorRole then
          .accepted (.resourceReservationCancelled resourceId reservationId nowUtc)
        else
          .rejected ⟨"UNAUTHORIZED_CANCEL", "Only reservation owner or admin can cancel reservation"⟩

/-- Two reservations are both active and their half-open `[fromUtc, toUtc)`
intervals intersect (`a.from < b.to ∧ b.from < a.to`). -/
def activeOverlap (a b : Reservation) : Prop :=
  a.status = .active ∧ b.status = .active ∧
  toMs a.fromUtc < toMs b.toUtc ∧ toMs b.fromUtc < toMs a.toUtc

/-- No two active reservations of the list intersect. -/
def reservationsDisjoint (rs : List Reservation) : Prop :=
  List.Pairwise (fun a b => ¬ activeOverlap a b) rs

/-- The no-overlap invariant, trivially true of the uninitialized stream. -/
def stateInvariant : Option ResourceState → Prop
  | none => True
  | some s => reservationsDisjoint s.reservations

/-- One step of the command loop: decide on the current state and fold the
accepted event into it (a rejected command leaves the state unchanged). -/
def processCommand (state : Option ResourceState) (command : ResourceCommand) :
    Option ResourceState :=
  match decideResource state command with
  | .accepted event => foldResource state event
  | .rejected _ => state

/-- Processing a whole command sequence from the empty (null) state. -/
def processCommands (commands : List ResourceCommand) : Option ResourceState :=
  commands.foldl processCommand none

lemma overlaps_eq_true_iff (f t : Ms) (r : Reservation) :
    overlaps f t r = true ↔
      (r.status = .active ∧ toMs f < toMs r.toUtc ∧ toMs r.fromUtc < toMs t) := by
  simp [overlaps, and_assoc]

lemma cancelIfMatch_fromUtc (rid : String) (c : Ms) (r : Reservation) :
    (cancelIfMatch rid c r).fromUtc = r.fromUtc := by
  unfold cancelIfMatch; split <;> rfl

lemma cancelIfMatch_toUtc (rid : String) (c : Ms) (r : Reservation) :
    (cancelIfMatch rid c r).toUtc = r.toUtc := by
  unfold cancelIfMatch; split <;> rfl

lemma cancelIfMatch_active (rid : String) (c : Ms) (r : Reservation)
    (h : (cancelIfMatch rid c r).status = .active) : r.status = .active := by
  unfold cancelIfMatch at h
  split at h
  · simp at h
  · exact h

lemma notActiveOverlap_cancelIfMatch (rid : String) (c : Ms) {a b : Reservation}
    (h : ¬ activeOverlap a b) :
    ¬ activeOverlap (cancelIfMatch rid c a) (cancelIfMatch rid c b) := by
  intro hov
  rcases hov with ⟨ha, hb, h1, h2⟩
  rw [cancelIfMatch_fromUtc, cancelIfMatch_toUtc] at h1 h2
  exact h ⟨cancelIfMatch_active _ _ _ ha, cancelIfMatch_active _ _ _ hb, h1, h2⟩

lemma reservationsDisjoint_map_cancel (rid : String) (c : Ms) {rs : List Reservation}
    (h : reservationsDisjoint rs) :
    reservationsDisjoint (rs.map (cancelIfMatch rid c)) :=
  h.map _ (fun _ _ hab => notActiveOverlap_cancelIfMatch rid c hab)

lemma reservationsDisjoint_append_new {rs : List Reservation} (h : reservationsDisjoint rs)
    (newR : Reservation)
    (hnew : ∀ a ∈ rs, ¬ activeOverlap a newR) :
    reservationsDisjoint (rs ++ [newR]) := by
  rw [reservationsDisjoint, List.pairwise_append]
  exact ⟨h, List.pairwise_singleton _ _, fun a ha b hb => by
    simp only [List.mem_singleton] at hb
    exact hb ▸ hnew a ha⟩

lemma processCommand_invariant (state : Option ResourceState) (command : ResourceCommand)
    (h : stateInvariant state) : stateInvariant (processCommand state command) := by
  cases command with
  | createResource rid nm d au ar =>
    cases state with
    | none =>
      cases ar <;>
        simp [processCommand, decideResource, foldResource, stateInvariant,
          reservationsDisjoint]
    | some s => cases ar <;> simpa [processCommand, decideResource] using h
  | updateResourceMetadata rid d au ar =>
    cases state with
    | none => cases ar <;> simp [processCommand, decideResource, stateInvariant]
    | some s =>
      cases ar <;>
        simpa [processCommand, decideResource, foldResource, stateInvariant,
          reservationsDisjoint] using h
  | createReservationInResource rid resId f t ruid au ar nowUtc =>
    cases state with
    | none => simp [processCommand, decideResource, stateInvariant]
    | some s =>
      by_cases h1 : isIntervalValid f t
      · by_cases h2 : toMs f < toMs nowUtc
        · simpa [processCommand, decideResource, h1, h2] using h
        · by_cases h3 : s.reservations.any (fun r => overlaps f t r) = true
          · simpa [processCommand, decideResource, h1, h2, h3] using h
          · simp only [processCommand, decideResource, h1, if_false, if_true, h2,
              h3, Bool.not_true, Bool.not_false, ite_false, ite_true, foldResource,
              stateInvariant]
            refine reservationsDisjoint_append_new h _ (fun a ha hov => ?_)
            have hfalse : overlaps f t a = false := by
              have hfa := List.any_eq_false.mp (by simpa using h3) a ha
              simpa using hfa
            rcases hov with ⟨haStat, _, h4, h5⟩
            have : overlaps f t a = true :=
              (overlaps_eq_true_iff f t a).mpr ⟨haStat, by simpa [toMs] using h5,
                by simpa [toMs] using h4⟩
            simp [this] at hfalse
      · simpa [processCommand, decideResource, h1] using h
  | cancelReservationInResource rid resId au ar nowUtc =>
    cases state with
    | none => simp [processCommand, decideResource, stateInvariant]
    | some s =>
      cases hf : s.reservations.find? (fun c => c.reservationId == resId) with
      | none => simpa [processCommand, decideResource, hf] using h
      | some r =>
        by_cases hc : r.status = .cancelled
        · simpa [processCommand, decideResource, hf, hc] using h
        · by_cases hcc : canCancel r au ar = true
          · simp only [processCommand, decideResource, hf, hc, hcc, if_false,
              if_true, ite_false, ite_true, foldResource, stateInvariant]
            exact reservationsDisjoint_map_cancel _ _ h
          · simpa [processCommand, decideResource, hf, hc, hcc] using h

/-- Claim C1: processing any sequence of resource commands through
`decideResource` and `foldResource` from the empty (null) state — folding each
accepted event before deciding the next command — yields a state in which no
two active reservations have intersecting half-open `[fromUtc, toUtc)`
intervals. -/
theorem processCommands_no_overlap (commands : List ResourceCommand) :
    stateInvariant (processCommands commands) := by
  suffices h : ∀ st, stateInvariant st → stateInvariant (commands.foldl processCommand st) from
    h none trivial
  induction commands with
  | nil => exact fun st hst => hst
  | cons c cs ih => exact fun st hst => ih _ (processCommand_invariant _ _ hst)

/-- The tag test `event.type === "ResourceCreated"` from `foldResource`. -/
def isResourceCreated (event : ResourceEvent) : Bool :=
  match event with
  | .resourceCreated _ _ _ => true
  | _ => false

/-- Claim C10: on the null (uninitialized) state `foldResource` is the
identity for every event other than `ResourceCreated`, and only a
`ResourceCreated` event produces a non-null state from null. -/
theorem foldResource_null_identity (event : ResourceEvent) :
    (foldResource none event = none) ↔ isResourceCreated event = false := by
  cases event <;> simp [foldResource, isResourceCreated]

/-- Claim C2: on a non-null state, `decideResource` checks a
`CreateReservationInResource` command in this order — `INVALID_INTERVAL` iff
the interval is invalid, else `RESERVATION_IN_PAST` iff it starts before
`nowUtc`, else `RESERVATION_OVERLAP` iff it intersects an existing active
reservation (half-open), else it accepts a `ReservationAddedToResource`
event carrying the command data with `createdAtUtc = nowUtc`. -/
theorem decideResource_createReservation_spec (s : ResourceState)
    (resourceId reservationId reservationUserId actorUserId : String)
    (actorRole : Role) (fromUtc toUtc nowUtc : Ms) :
    (decideResource (some s)
        (.createReservationInResource resourceId reservationId fromUtc toUtc
          reservationUserId actorUserId actorRole nowUtc) =
        .rejected ⟨"INVALID_INTERVAL", "Reservation interval is invalid"⟩ ↔
      ¬ fromUtc < toUtc)
    ∧ (fromUtc < toUtc →
        (decideResource (some s)
            (.createReservationInResource resourceId reservationId fromUtc toUtc
              reservationUserId actorUserId actorRole nowUtc) =
            .rejected ⟨"RESERVATION_IN_PAST", "Reservation cannot start in the past"⟩ ↔
          fromUtc < nowUtc))
    ∧ (fromUtc < toUtc → ¬ fromUtc < nowUtc →
        (decideResource (some s)
            (.createReservationInResource resourceId reservationId fromUtc toUtc
              reservationUserId actorUserId actorRole nowUtc) =
            .rejected ⟨"RESERVATION_OVERLAP", "Reservation overlaps existing active reservation"⟩ ↔
          ∃ r ∈ s.reservations,
            r.status = .active ∧ fromUtc < r.toUtc ∧ r.fromUtc < toUtc))
    ∧ (fromUtc < toUtc → ¬ fromUtc < nowUtc →
        (∀ r ∈ s.reservations,
          ¬ (r.status = .active ∧ fromUtc < r.toUtc ∧ r.fromUtc < toUtc)) →
        decideResource (some s)
            (.createReservationInResource resourceId reservationId fromUtc toUtc
              reservationUserId actorUserId actorRole nowUtc) =
          .accepted (.reservationAdded resourceId reservationId reservationUserId
            fromUtc toUtc nowUtc)) := by
  by_cases h1 : fromUtc < toUtc
  · by_cases h2 : fromUtc < nowUtc
    · simp [decideResource, isIntervalValid, toMs, h1, h2]
    · by_cases h3 : s.reservations.any (fun r => overlaps fromUtc toUtc r) = true
      · have h3' := List.any_eq_true.mp h3
        simp only [overlaps_eq_true_iff, toMs] at h3'
        simp [decideResource, isIntervalValid, toMs, h1, h2, h3]
        exact h3'
      · have h3' := List.any_eq_false.mp (by simpa using h3)
        simp only [Bool.not_eq_true, overlaps] at h3'
        refine ⟨by simp [decideResource, isIntervalValid, toMs, h1, h2, h3],
          by simp [decideResource, isIntervalValid, toMs, h1, h2, h3],
          ?_, ?_⟩ <;> intro _ _
        · simp [decideResource, isIntervalValid, toMs, h1, h2, h3]
          intro r hr hs hft
          have h4 := h3' r hr
          simp [toMs, hs, hft] at h4
          exact h4
        · intro _
          simp [decideResource, isIntervalValid, toMs, h1, h2, h3]
  · simp [decideResource, isIntervalValid, toMs, h1]

/-- A sample active reservation on the half-open interval `[10, 20)`. -/
def sampleReservation : Reservation :=
  { reservationId := "res1", userId := "u1", fromUtc := 10, toUtc := 20,
    status := .active, createdAtUtc := 0, cancelledAtUtc := none }

/-- A sample resource whose only reservation is `sampleReservation`. -/
def sampleState : ResourceState :=
  { resourceId := "r1", name := "SalaA", details := "Piso 1", status := "active",
    reservations := [sampleReservation] }

/-- Concrete run of `decideResource_createReservation_spec`: with one active
reservation on `[10, 20)` a request for `[15, 25)` at `now = 5` is rejected
with `RESERVATION_OVERLAP`, and a request for `[20, 30)` is accepted. -/
theorem decideResource_createReservation_spec_witness :
    (decideResource (some sampleState)
        (.createReservationInResource "r1" "res2" 15 25 "u2" "u2" .user 5) =
      .rejected ⟨"RESERVATION_OVERLAP", "Reservation overlaps existing active reservation"⟩)
    ∧ (decideResource (some sampleState)
        (.createReservationInResource "r1" "res2" 20 30 "u2" "u2" .user 5) =
      .accepted (.reservationAdded "r1" "res2" "u2" 20 30 5)) := by
  constructor
  · exact ((decideResource_createReservation_spec sampleState
      "r1" "res2" "u2" "u2" .user 15 25 5).2.2.1 (by decide) (by decide)).mpr
      ⟨sampleReservation, by simp [sampleState], by decide, by decide, by decide⟩
  · exact (decideResource_createReservation_spec sampleState
      "r1" "res2" "u2" "u2" .user 20 30 5).2.2.2 (by decide) (by decide)
      (by intro r hr; simp [sampleState] at hr; subst hr; decide)

/-- Claim C8: `decideResource` on `CancelReservationInResource` rejects
`RESOURCE_NOT_FOUND` on a null state; else `RESERVATION_NOT_FOUND` when no
reservation carries the command's id; else `RESERVATION_ALREADY_CANCELLED`
when the found reservation is cancelled; else `UNAUTHORIZED_CANCEL` when the
actor is neither admin nor the owner; else accepts a
`ResourceReservationCancelled` event with `cancelledAtUtc = nowUtc`. -/
theorem decideResource_cancelReservation_spec (s : ResourceState)
    (resourceId reservationId actorUserId : String) (actorRole : Role) (nowUtc : Ms) :
    (decideResource none
        (.cancelReservationInResource resourceId reservationId actorUserId actorRole nowUtc) =
      .rejected ⟨"RESOURCE_NOT_FOUND", "Resource does not exist"⟩)
    ∧ ((∀ r ∈ s.reservations, r.reservationId ≠ reservationId) →
        decideResource (some s)
            (.cancelReservationInResource resourceId reservationId actorUserId actorRole nowUtc) =
          .rejected ⟨"RESERVATION_NOT_FOUND", "Reservation does not exist"⟩)
    ∧ (∀ r, s.reservations.find? (fun c => c.reservationId == reservationId) = some r →
        (r.status = .cancelled →
          decideResource (some s)
              (.cancelReservationInResource resourceId reservationId actorUserId actorRole nowUtc) =
            .rejected ⟨"RESERVATION_ALREADY_CANCELLED", "Reservation is already cancelled"⟩)
        ∧ (r.status = .active → actorRole ≠ .admin → r.userId ≠ actorUserId →
          decideResource (some s)
              (.cancelReservationInResource resourceId reservationId actorUserId actorRole nowUtc) =
            .rejected ⟨"UNAUTHORIZED_CANCEL", "Only reservation owner or admin can cancel reservation"⟩)
        ∧ (r.status = .active → (actorRole = .admin ∨ r.userId = actorUserId) →
          decideResource (some s)
              (.cancelReservationInResource resourceId reservationId actorUserId actorRole nowUtc) =
            .accepted (.resourceReservationCancelled resourceId reservationId nowUtc))) := by
  refine ⟨rfl, ?_, ?_⟩
  · intro hnone
    have hfind : s.reservations.find? (fun c => c.reservationId == reservationId) = none := by
      rw [List.find?_eq_none]
      intro r hr
      simpa using hnone r hr
    simp [decideResource, hfind]
  · intro r hfind
    refine ⟨fun hc => by simp [decideResource, hfind, hc], ?_, ?_⟩
    · intro ha hadm hown
      have hcc : canCancel r actorUserId actorRole = false := by
        simp [canCancel, hadm, hown]
      simp [decideResource, hfind, ha, hcc]
    · intro ha hor
      have hcc : canCancel r actorUserId actorRole = true := by
        rcases hor with h | h <;> simp [canCancel, h]
      simp [decideResource, hfind, ha, hcc]

/-- Concrete run of `decideResource_cancelReservation_spec`: cancelling on the
null state is `RESOURCE_NOT_FOUND`; the owner cancelling their own active
reservation is accepted with `cancelledAtUtc` set to the command's `nowUtc`. -/
theorem decideResource_cancelReservation_spec_witness :
    (decideResource none (.cancelReservationInResource "r1" "res1" "u1" .user 99) =
      .rejected ⟨"RESOURCE_NOT_FOUND", "Resource does not exist"⟩)
    ∧ (decideResource (some sampleState)
        (.cancelReservationInResource "r1" "res1" "u1" .user 99) =
      .accepted (.resourceReservationCancelled "r1" "res1" 99)) := by
  constructor
  · exact (decideResource_cancelReservation_spec sampleState "r1" "res1" "u1" .user 99).1
  · exact ((decideResource_cancelReservation_spec sampleState "r1" "res1" "u1" .user 99).2.2
      sampleReservation (by decide)).2.2 (by decide) (Or.inr (by decide))

/-- A recorded event as the rehydration path consumes it: the stream
`version` plus the `(type, payload)` data the fold receives (the envelope's
`eventId`, `streamId`, `occurredAtUtc` and `meta` are not consumed). -/
structure RecordedEvent (ε : Type) where
  version : Nat
  event : ε
deriving DecidableEq, Repr

/-- `SnapshotRecord` from `event-store.ts` (stream identity fields omitted). -/
structure SnapshotRecord (σ : Type) where
  snapshotVersion : Nat
  lastEventVersion : Nat
  state : σ
deriving DecidableEq, Repr

/-- `foldFromRecordedEvents` from the command runner: reduce the fold over
the recorded events' `(type, payload)` data. -/
def foldFromRecordedEvents {σ ε : Type} (events : List (RecordedEvent ε))
    (initial : σ) (fold : σ → ε → σ) : σ :=
  events.foldl (fun state recordedEvent => fold state recordedEvent.event) initial

/-- `loadStateFromSnapshotAndTail` from the command runner, with the snapshot
read and the tail read supplied as explicit inputs: fold the tail onto the
snapshot state (or the initial state), and report the last event version. -/
def loadStateFromSnapshotAndTail {σ ε : Type} (snapshot : Option (SnapshotRecord σ))
    (tail : List (RecordedEvent ε)) (initialState : σ) (fold : σ → ε → σ) : σ × Nat :=
  let startState := match snapshot with | some sn => sn.state | none => initialState
  let state := tail.foldl (fun acc recordedEvent => fold acc recordedEvent.event) startState
  let lastEventVersion :=
    match tail.getLast? with
    | some lastRecorded => lastRecorded.version
    | none => match snapshot with | some sn => sn.lastEventVersion | none => 0
  (state, lastEventVersion)

/-- Claim C9: folding a whole event list equals folding a prefix into a
snapshot and then folding the remaining tail; consequently
`loadStateFromSnapshotAndTail` with a snapshot holding the folded prefix
computes the same state as folding everything from version 1, and with no
snapshot it is exactly the full fold. -/
theorem fold_snapshot_split {σ ε : Type} (fold : σ → ε → σ) (initial : σ) :
    (∀ (pre tail : List (RecordedEvent ε)),
      foldFromRecordedEvents (pre ++ tail) initial fold =
        foldFromRecordedEvents tail (foldFromRecordedEvents pre initial fold) fold)
    ∧ (∀ (pre tail : List (RecordedEvent ε)) (snapshot : SnapshotRecord σ),
      snapshot.state = foldFromRecordedEvents pre initial fold →
      (loadStateFromSnapshotAndTail (some snapshot) tail initial fold).1 =
        foldFromRecordedEvents (pre ++ tail) initial fold)
    ∧ (∀ events : List (RecordedEvent ε),
      (loadStateFromSnapshotAndTail none events initial fold).1 =
        foldFromRecordedEvents events initial fold) := by
  refine ⟨fun pre tail => ?_, fun pre tail snapshot hsnap => ?_, fun events => rfl⟩
  · simp [foldFromRecordedEvents, List.foldl_append]
  · simp [loadStateFromSnapshotAndTail, hsnap, foldFromRecordedEvents, List.foldl_append]

/-- Concrete run of `fold_snapshot_split`: a snapshot at version 2 holding the
sum of the first two payloads plus the tail `[4, 5]` rehydrates to the sum of
all four payloads. -/
theorem fold_snapshot_split_witness :
    (loadStateFromSnapshotAndTail (some ⟨2, 2, 3⟩)
        [⟨3, 4⟩, ⟨4, 5⟩] 0 (fun a b => a + b)).1 =
      foldFromRecordedEvents [⟨1, 1⟩, ⟨2, 2⟩, ⟨3, 4⟩, ⟨4, 5⟩] 0
        (fun a b => a + b) :=
  (fold_snapshot_split (fun a b => a + b) 0).2.1 [⟨1, 1⟩, ⟨2, 2⟩] [⟨3, 4⟩, ⟨4, 5⟩]
    ⟨2, 2, 3⟩ (by decide)

/-- Accumulator of `validateSequentialVersions`' reduce. -/
structure VersionCheckState where
  ok : Bool
  expected : Nat
  actual : Option Nat
deriving DecidableEq, Repr

/-- One step of `validateSequentialVersions`' reduce.  Versions parsed from
well-formed keys are naturals, so the `Number.isFinite` guard on `actual`
always holds. -/
def versionCheckStep (state : VersionCheckState) (currentVersion : Nat) :
    VersionCheckState :=
  if state.ok && (currentVersion == state.expected) then
    { ok := true, expected := state.expected + 1, actual := some currentVersion }
  else
    { ok := false, expected := state.expected, actual := some currentVersion }

/-- `validateSequentialVersions` from `event-store.ts`. -/
def validateSequentialVersions (versions : List Nat) (expectedFromVersion : Nat) :
    VersionCheckState :=
  versions.foldl versionCheckStep
    { ok := true, expected := expectedFromVersion, actual := none }

/-- Insert an entry into a version-sorted list, after entries whose version
is not larger. -/
def insertByVersion {α : Type} (e : RecordedEvent α) :
    List (RecordedEvent α) → List (RecordedEvent α)
  | [] => [e]
  | x :: xs =>
    if x.version ≤ e.version then x :: insertByVersion e xs else e :: x :: xs

/-- Ascending sort by `version`, modelling `.sort((a, b) => a.version - b.version)`.
Two listing entries with the same version can never pass continuity
validation, so the tie-breaking order of the sort is immaterial to every
property below. -/
def sortByVersion {α : Type} : List (RecordedEvent α) → List (RecordedEvent α)
  | [] => []
  | e :: rest => insertByVersion e (sortByVersion rest)

/-- `loadStreamFromVersion` from `event-store.ts`, with the bucket listing
supplied as the already-parsed `(version, object)` entries (keys whose final
segment does not parse to a finite number are dropped before this point by
the `Number.isFinite` filter): keep versions `≥ fromInclusive` and sort
ascending by version. -/
def loadStreamFromVersion {α : Type} (listing : List (RecordedEvent α))
    (fromVersionInclusive : Nat) : List (RecordedEvent α) :=
  sortByVersion (listing.filter (fun e => decide (fromVersionInclusive ≤ e.version)))

/-- `StreamGapDetectedError` payload (`expectedVersion`, `actualVersion`). -/
structure StreamGapError where
  expectedVersion : Nat
  actualVersion : Option Nat
deriving DecidableEq, Repr

/-- The `loadAndValidate` closure inside `loadStreamWithGapRetry`: load from
the listing, validate continuity, and reject with a gap error on mismatch. -/
def loadAndValidate {α : Type} (listing : List (RecordedEvent α))
    (fromVersionInclusive : Nat) : Except StreamGapError (List (RecordedEvent α)) :=
  let events := loadStreamFromVersion listing fromVersionInclusive
  let validation :=
    validateSequentialVersions (events.map (fun e => e.version)) fromVersionInclusive
  if validation.ok then .ok events
  else .error { expectedVersion := validation.expected, actualVersion := validation.actual }

/-- `loadStreamWithGapRetry` from `event-store.ts`: one full reload on a gap
error (a second gap error propagates).  The two listings are the results the
eventually-consistent store returns to the first and second load; only
`StreamGapDetectedError` triggers the retry, any other transport rejection is
outside this pure model and propagates unchanged. -/
def loadStreamWithGapRetry {α : Type} (firstListing secondListing : List (RecordedEvent α))
    (fromVersionInclusive : Nat) : Except StreamGapError (List (RecordedEvent α)) :=
  match loadAndValidate firstListing fromVersionInclusive with
  | .ok events => .ok events
  | .error _ => loadAndValidate secondListing fromVersionInclusive

/-- Length of the longest prefix of `versions` matching `expected`,
`expected + 1`, … — the point up to which the continuity scan succeeds. -/
def matchingRunLength : List Nat → Nat → Nat
  | [], _ => 0
  | v :: rest, expected =>
    if v = expected then matchingRunLength rest (expected + 1) + 1 else 0

lemma foldl_versionCheckStep_false (versions : List Nat) (e : Nat) (a : Option Nat) :
    versions.foldl versionCheckStep ⟨false, e, a⟩ =
      ⟨false, e, versions.foldl (fun _ v => some v) a⟩ := by
  induction versions generalizing a with
  | nil => rfl
  | cons v rest ih => simp [List.foldl_cons, versionCheckStep, ih]

lemma foldl_versionCheckStep_true (versions : List Nat) (e : Nat) (a : Option Nat) :
    versions.foldl versionCheckStep ⟨true, e, a⟩ =
      ⟨decide (matchingRunLength versions e = versions.length),
       e + matchingRunLength versions e,
       versions.foldl (fun _ v => some v) a⟩ := by
  induction versions generalizing e a with
  | nil => simp [matchingRunLength]
  | cons v rest ih =>
    by_cases hv : v = e
    · subst hv
      rw [List.foldl_cons]
      have hstep : versionCheckStep ⟨true, v, a⟩ v = ⟨true, v + 1, some v⟩ := by
        simp [versionCheckStep]
      rw [hstep, ih]
      have hrun : matchingRunLength (v :: rest) v = matchingRunLength rest (v + 1) + 1 := by
        simp [matchingRunLength]
      rw [hrun, List.foldl_cons, List.length_cons]
      simp only [VersionCheckState.mk.injEq]
      refine ⟨?_, by omega, trivial⟩
      by_cases hm : matchingRunLength rest (v + 1) = rest.length
      · simp [hm]
      · have hm' : ¬ (matchingRunLength rest (v + 1) + 1 = rest.length + 1) := by omega
        simp [hm, hm']
    · rw [List.foldl_cons]
      have hstep : versionCheckStep ⟨true, e, a⟩ v = ⟨false, e, some v⟩ := by
        simp [versionCheckStep, hv]
      rw [hstep, foldl_versionCheckStep_false]
      have hrun0 : matchingRunLength (v :: rest) e = 0 := by
        simp [matchingRunLength, hv]
      rw [hrun0, List.foldl_cons, List.length_cons]
      simp

lemma foldl_lastUpdate (versions : List Nat) (a : Option Nat) :
    versions.foldl (fun _ v => some v) a =
      match versions.getLast? with
      | some v => some v
      | none => a := by
  induction versions generalizing a with
  | nil => rfl
  | cons v rest ih =>
    cases rest with
    | nil => simp [List.foldl_cons, ih]
    | cons w t =>
      rw [List.foldl_cons, ih, List.getLast?_cons_cons]
      cases h : (w :: t).getLast? with
      | none => simp [List.getLast?_eq_none_iff] at h
      | some u => rfl

lemma matchingRunLength_eq_length_iff (versions : List Nat) (e : Nat) :
    matchingRunLength versions e = versions.length ↔
      versions = List.range' e versions.length := by
  induction versions generalizing e with
  | nil => simp [matchingRunLength]
  | cons v rest ih =>
    by_cases hv : v = e
    · subst hv
      rw [List.length_cons, List.range'_succ]
      simp [matchingRunLength, ih]
    · rw [List.length_cons, List.range'_succ]
      simp [matchingRunLength, hv]

lemma validateSequentialVersions_eq (versions : List Nat) (v0 : Nat) :
    validateSequentialVersions versions v0 =
      ⟨decide (matchingRunLength versions v0 = versions.length),
       v0 + matchingRunLength versions v0,
       versions.getLast?⟩ := by
  rw [validateSequentialVersions, foldl_versionCheckStep_true, foldl_lastUpdate]
  cases h : versions.getLast? <;> rfl

lemma loadAndValidate_ok_versions {α : Type} (listing : List (RecordedEvent α))
    (v0 : Nat) (events : List (RecordedEvent α))
    (h : loadAndValidate listing v0 = .ok events) :
    events.map (fun ev => ev.version) = List.range' v0 events.length := by
  simp only [loadAndValidate] at h
  split at h
  next hok =>
    obtain rfl : loadStreamFromVersion listing v0 = events := by simpa using h
    rw [validateSequentialVersions_eq] at hok
    simp only [decide_eq_true_eq] at hok
    rw [← List.length_map (loadStreamFromVersion listing v0) (fun ev => ev.version)]
    exact (matchingRunLength_eq_length_iff _ _).mp (by simpa using hok)
  next => exact absurd h (by simp)

/-- Claim C3: the loader accepts a listing exactly when its versions are
`fromInclusive, fromInclusive + 1, …`; a first gap error triggers exactly one
full reload, whose own gap error is surfaced carrying the first version
still expected and the last version encountered; an accepted load is the
contiguous listing sorted strictly ascending by version. -/
theorem loadStreamWithGapRetry_spec {α : Type}
    (firstListing secondListing : List (RecordedEvent α)) (fromVersionInclusive : Nat) :
    (∀ (versions : List Nat) (v0 : Nat),
      ((validateSequentialVersions versions v0).ok = true ↔
        versions = List.range' v0 versions.length)
      ∧ (validateSequentialVersions versions v0).expected =
          v0 + matchingRunLength versions v0
      ∧ (validateSequentialVersions versions v0).actual = versions.getLast?)
    ∧ (∀ events, loadAndValidate firstListing fromVersionInclusive = .ok events →
        loadStreamWithGapRetry firstListing secondListing fromVersionInclusive = .ok events)
    ∧ (∀ e, loadAndValidate firstListing fromVersionInclusive = .error e →
        loadStreamWithGapRetry firstListing secondListing fromVersionInclusive =
          loadAndValidate secondListing fromVersionInclusive)
    ∧ (∀ e e', loadAndValidate firstListing fromVersionInclusive = .error e →
        loadAndValidate secondListing fromVersionInclusive = .error e' →
        loadStreamWithGapRetry firstListing secondListing fromVersionInclusive = .error e'
        ∧ e'.expectedVersion = fromVersionInclusive +
            matchingRunLength
              ((loadStreamFromVersion secondListing fromVersionInclusive).map
                (fun ev => ev.version)) fromVersionInclusive
        ∧ e'.actualVersion =
            ((loadStreamFromVersion secondListing fromVersionInclusive).map
              (fun ev => ev.version)).getLast?)
    ∧ (∀ events,
        loadStreamWithGapRetry firstListing secondListing fromVersionInclusive = .ok events →
        events.map (fun ev => ev.version) = List.range' fromVersionInclusive events.length
        ∧ List.Pairwise (fun a b => a.version < b.version) events) := by
  refine ⟨?_, ?_, ?_, ?_, ?_⟩
  · intro versions v0
    rw [validateSequentialVersions_eq]
    exact ⟨by simp [matchingRunLength_eq_length_iff], rfl, rfl⟩
  · intro events h
    rw [loadStreamWithGapRetry, h]
  · intro e h
    rw [loadStreamWithGapRetry, h]
  · intro e e' h h'
    refine ⟨by rw [loadStreamWithGapRetry, h, h'], ?_, ?_⟩ <;>
    · simp only [loadAndValidate] at h'
      split at h'
      next => exact absurd h' (by simp)
      next =>
        obtain rfl : (⟨_, _⟩ : StreamGapError) = e' := by simpa using h'
        rw [validateSequentialVersions_eq]
  · intro events h
    have hmap : events.map (fun ev => ev.version) =
        List.range' fromVersionInclusive events.length := by
      rw [loadStreamWithGapRetry] at h
      split at h
      next heq => exact loadAndValidate_ok_versions _ _ _ (by rw [heq]; simpa using h)
      next => exact loadAndValidate_ok_versions _ _ _ h
    have hpw : List.Pairwise (fun a b => a < b) (events.map (fun ev => ev.version)) := by
      rw [hmap]
      exact List.pairwise_lt_range' _ _
    exact ⟨hmap, List.pairwise_map.mp hpw⟩

/-- Concrete run of `loadStreamWithGapRetry_spec` (spec scenario 6): a listing
`[v1, v3]` loaded from version 1 fails validation on both attempts, and the
loader surfaces `STREAM_GAP_DETECTED` with `expected = 2`, `actual = 3`. -/
theorem loadStreamWithGapRetry_spec_witness :
    loadStreamWithGapRetry [(⟨1, "e1"⟩ : RecordedEvent String), ⟨3, "e3"⟩]
        [⟨1, "e1"⟩, ⟨3, "e3"⟩] 1 = .error ⟨2, some 3⟩ :=
  ((loadStreamWithGapRetry_spec [⟨1, "e1"⟩, ⟨3, "e3"⟩] [⟨1, "e1"⟩, ⟨3, "e3"⟩] 1).2.2.2.1
    ⟨2, some 3⟩ ⟨2, some 3⟩ rfl rfl).1

/-- Outcome of one conditional `PutObject` (`IfNoneMatch: "*"`) against the
blob store: resolved, or rejected with the transport error's `name`. -/
inductive S3PutOutcome
  | ok
  | error (name : String)
deriving DecidableEq, Repr

/-- Error surfaced by `appendEvent`: the `VersionConflictError` sentinel or
an unchanged underlying transport error. -/
inductive AppendError
  | versionConflict
  | transport (name : String)
deriving DecidableEq, Repr

/-- The error-name test shared by `appendEvent` and `putSnapshot`:
`error.name === "PreconditionFailed" || error.name === "ConditionalRequestConflict"`. -/
def isPreconditionFamily (name : String) : Bool :=
  name == "PreconditionFailed" || name == "ConditionalRequestConflict"

/-- `appendEvent` from `event-store.ts`, with the conditional put's outcome
as an explicit input.  The first component records whether a put was issued
at all: when the `expectedVersion + 1 === recordedEvent.version` precondition
fails the function rejects without sending anything. -/
def appendEvent (recordedEventVersion expectedVersion : Nat)
    (putOutcome : S3PutOutcome) : Bool × Except AppendError Unit :=
  if expectedVersion + 1 = recordedEventVersion then
    (true,
      match putOutcome with
      | .ok => .ok ()
      | .error name =>
        if isPreconditionFamily name then .error .versionConflict
        else .error (.transport name))
  else
    (false, .error .versionConflict)

/-- Claim C4: `appendEvent` enforces `expectedVersion + 1 == event.version`
(rejecting with `VERSION_CONFLICT` and no write when violated), normalizes
`PreconditionFailed`/`ConditionalRequestConflict` to `VERSION_CONFLICT`,
surfaces every other transport error unchanged, and succeeds only when the
precondition holds and the put succeeds. -/
theorem appendEvent_spec (recordedEventVersion expectedVersion : Nat)
    (putOutcome : S3PutOutcome) :
    (expectedVersion + 1 ≠ recordedEventVersion →
      appendEvent recordedEventVersion expectedVersion putOutcome =
        (false, .error .versionConflict))
    ∧ (expectedVersion + 1 = recordedEventVersion →
        (appendEvent recordedEventVersion expectedVersion putOutcome).1 = true)
    ∧ (expectedVersion + 1 = recordedEventVersion → putOutcome = .ok →
        (appendEvent recordedEventVersion expectedVersion putOutcome).2 = .ok ())
    ∧ (∀ name, expectedVersion + 1 = recordedEventVersion →
        putOutcome = .error name → isPreconditionFamily name = true →
        (appendEvent recordedEventVersion expectedVersion putOutcome).2 =
          .error .versionConflict)
    ∧ (∀ name, expectedVersion + 1 = recordedEventVersion →
        putOutcome = .error name → isPreconditionFamily name = false →
        (appendEvent recordedEventVersion expectedVersion putOutcome).2 =
          .error (.transport name))
    ∧ ((appendEvent recordedEventVersion expectedVersion putOutcome).2 = .ok () →
        expectedVersion + 1 = recordedEventVersion ∧ putOutcome = .ok)
    ∧ (∀ name, isPreconditionFamily name = true ↔
        (name = "PreconditionFailed" ∨ name = "ConditionalRequestConflict")) := by
  by_cases hpre : expectedVersion + 1 = recordedEventVersion
  · refine ⟨fun h => absurd hpre h, fun _ => by simp [appendEvent, hpre],
      fun _ hput => by simp [appendEvent, hpre, hput],
      fun name _ hput hfam => by simp [appendEvent, hpre, hput, hfam],
      fun name _ hput hfam => by simp [appendEvent, hpre, hput, hfam], ?_,
      fun name => by simp [isPreconditionFamily]⟩
    intro hok
    refine ⟨hpre, ?_⟩
    cases putOutcome with
    | ok => rfl
    | error name =>
      by_cases hfam : isPreconditionFamily name = true <;>
        simp [appendEvent, hpre, hfam] at hok
  · refine ⟨fun _ => by simp [appendEvent, hpre], fun h => absurd h hpre,
      fun h => absurd h hpre, fun name h => absurd h hpre,
      fun name h => absurd h hpre, ?_, fun name => by simp [isPreconditionFamily]⟩
    intro hok
    simp [appendEvent, hpre] at hok

/-- Concrete run of `appendEvent_spec`: appending version 5 against expected
version 3 issues no write and rejects with the version-conflict sentinel,
even though the store itself would have accepted the put. -/
theorem appendEvent_spec_witness :
    appendEvent 5 3 .ok = (false, .error .versionConflict) :=
  (appendEvent_spec 5 3 .ok).1 (by decide)

/-- An HTTP response body: an opaque JSON payload or a domain error object
(`domainErrorResponse` replies with the error itself as the body). -/
inductive BodyVal
  | json (value : String)
  | domainErrorBody (e : DomainError)
deriving DecidableEq, Repr

/-- `HttpResponse` from the pipeline: `{ statusCode, body }`. -/
structure HttpResponse where
  statusCode : Nat
  body : BodyVal
deriving DecidableEq, Repr

/-- `statusOf` from the pipeline (`pipeline.ts`): domain error code → HTTP
status, `.otherwise(() => 400)`. -/
def statusOf (code : String) : Nat :=
  if code = "FORBIDDEN" ∨ code = "UNAUTHORIZED_CANCEL" ∨ code = "BOOTSTRAP_FORBIDDEN" then
    403
  else if code = "RESOURCE_NOT_FOUND" ∨ code = "RESERVATION_NOT_FOUND" ∨
      code = "USER_NOT_FOUND" then
    404
  else if code = "RESOURCE_NAME_TAKEN" ∨ code = "RESOURCE_ALREADY_EXISTS" ∨
      code = "USER_ALREADY_EXISTS" ∨ code = "RESERVATION_OVERLAP" ∨
      code = "VERSION_CONFLICT" ∨ code = "IDEMPOTENCY_HASH_MISMATCH" then
    409
  else if code = "INVALID_CREDENTIALS" then
    401
  else if code = "INVALID_INTERVAL" ∨ code = "RESERVATION_IN_PAST" then
    400
  else
    400

/-- `domainErrorResponse` from the pipeline. -/
def domainErrorResponse (e : DomainError) : HttpResponse :=
  ⟨statusOf e.code, .domainErrorBody e⟩

/-- `IdempotencyRecord` from `idempotency.ts`. -/
structure IdempotencyRecord where
  idempotencyKey : String
  contentHash : String
  statusCode : Nat
  responseBody : BodyVal
  createdAtUtc : Ms
deriving DecidableEq, Repr

/-- Result union of `idempotencyDecision`. -/
inductive IdempotencyDecision
  | fresh (contentHash : String)
  | replay (record : IdempotencyRecord)
  | mismatch (error : DomainError)
deriving DecidableEq, Repr

/-- `idempotencyDecision` from `idempotency.ts`.  `hashContent` is the
injected SHA-256-of-JSON dependency of `makeIdempotencyStore`, abstracted as
a function on the opaque request content (modelled as a string); the source's
`kind: "new"` variant is named `fresh`. -/
def idempotencyDecision (hashContent : String → String)
    (existing : Option IdempotencyRecord) (idempotencyKey : String)
    (content : String) : IdempotencyDecision :=
  let contentHash := hashContent content
  match existing with
  | none => .fresh contentHash
  | some record =>
    if record.contentHash = contentHash then .replay record
    else .mismatch ⟨"IDEMPOTENCY_HASH_MISMATCH", "Idempotency-Key was used with a different payload"⟩

/-- `runIdempotent` from the pipeline, with the loaded record and the command
action's response as explicit inputs.  The returned flag records whether the
action ran; on the `fresh` path the best-effort `saveIdempotency` cannot
change the returned response (`.then(() => result).catch(() => result)`). -/
def runIdempotent (hashContent : String → String)
    (existing : Option IdempotencyRecord) (idempotencyKey : String)
    (content : String) (action : HttpResponse) : HttpResponse × Bool :=
  match idempotencyDecision hashContent existing idempotencyKey content with
  | .replay record => (⟨record.statusCode, record.responseBody⟩, false)
  | .mismatch e => (domainErrorResponse e, false)
  | .fresh _ => (action, true)

/-- Claim C5: with a stored record whose hash matches the incoming content the
gate replays the stored `(statusCode, responseBody)` verbatim without running
the action; with a differing hash it replies `IDEMPOTENCY_HASH_MISMATCH`
(HTTP 409) without running the action; the action runs exactly when no
record exists. -/
theorem runIdempotent_spec (hashContent : String → String)
    (existing : Option IdempotencyRecord) (idempotencyKey content : String)
    (action : HttpResponse) :
    (∀ record, existing = some record → record.contentHash = hashContent content →
      runIdempotent hashContent existing idempotencyKey content action =
        (⟨record.statusCode, record.responseBody⟩, false))
    ∧ (∀ record, existing = some record → record.contentHash ≠ hashContent content →
      runIdempotent hashContent existing idempotencyKey content action =
        (⟨409, .domainErrorBody ⟨"IDEMPOTENCY_HASH_MISMATCH", "Idempotency-Key was used with a different payload"⟩⟩,
          false))
    ∧ ((runIdempotent hashContent existing idempotencyKey content action).2 = true ↔
        existing = none)
    ∧ (existing = none →
      runIdempotent hashContent existing idempotencyKey content action = (action, true)) := by
  refine ⟨?_, ?_, ?_, ?_⟩
  · intro record hrec hhash
    subst hrec
    simp [runIdempotent, idempotencyDecision, hhash]
  · intro record hrec hhash
    subst hrec
    simp [runIdempotent, idempotencyDecision, hhash, domainErrorResponse, statusOf]
  · cases existing with
    | none => simp [runIdempotent, idempotencyDecision]
    | some record =>
      by_cases hhash : record.contentHash = hashContent content <;>
        simp [runIdempotent, idempotencyDecision, hhash]
  · intro hnone
    subst hnone
    simp [runIdempotent, idempotencyDecision]

/-- Concrete run of `runIdempotent_spec`: a stored record with the matching
hash is replayed verbatim; the same record with a different incoming content
hash yields the 409 mismatch error. -/
theorem runIdempotent_spec_witness :
    (runIdempotent id (some ⟨"k1", "h1", 201, .json "created", 0⟩) "k1" "h1"
        ⟨500, .json "should-not-run"⟩ = (⟨201, .json "created"⟩, false))
    ∧ (runIdempotent id (some ⟨"k1", "h1", 201, .json "created", 0⟩) "k1" "h2"
        ⟨500, .json "should-not-run"⟩ =
      (⟨409, .domainErrorBody ⟨"IDEMPOTENCY_HASH_MISMATCH", "Idempotency-Key was used with a different payload"⟩⟩,
        false)) :=
  ⟨(runIdempotent_spec id (some ⟨"k1", "h1", 201, .json "created", 0⟩) "k1" "h1"
      ⟨500, .json "should-not-run"⟩).1 ⟨"k1", "h1", 201, .json "created", 0⟩ rfl rfl,
    (runIdempotent_spec id (some ⟨"k1", "h1", 201, .json "created", 0⟩) "k1" "h2"
      ⟨500, .json "should-not-run"⟩).2.1 ⟨"k1", "h1", 201, .json "created", 0⟩ rfl
      (by decide)⟩

/-- Outcome of one full command attempt (`runResourceAttempt`: rehydrate →
decide → append → publish → snapshot → reply): a response, the
`VersionConflictError` sentinel, or another rejection. -/
inductive AttemptOutcome
  | success (response : HttpResponse)
  | versionConflict
  | failure (message : String)
deriving DecidableEq, Repr

/-- `withVersionConflictRetries` from the command runner: re-run the action
while it rejects with `VersionConflictError` and retries remain; any other
outcome (or a conflict with no retries left) is returned as is.  `attempt i`
is the outcome of the `i`-th fresh run — each run restarts from the
rehydrate step.  The first component counts the attempts executed. -/
def withVersionConflictRetries (attempt : Nat → AttemptOutcome) :
    Nat → Nat → Nat × AttemptOutcome
  | attemptIndex, 0 => (attemptIndex + 1, attempt attemptIndex)
  | attemptIndex, n + 1 =>
    match attempt attemptIndex with
    | .versionConflict => withVersionConflictRetries attempt (attemptIndex + 1) n
    | outcome => (attemptIndex + 1, outcome)

/-- The retry-budget normalization in `applyResourceCommand`:
`Number.isFinite(v) && v >= 0 ? v : 1`.  A JS number is modelled as
`Option Int` — `none` for the non-finite values (`NaN`, `±Infinity`),
`some v` for a finite integer (the config parses an integer count). -/
def effectiveRetries (versionConflictMaxRetries : Option Int) : Nat :=
  match versionConflictMaxRetries with
  | some v => if 0 ≤ v then v.toNat else 1
  | none => 1

/-- `applyResourceCommand` from the command runner: run the attempt under
`withVersionConflictRetries`; a conflict that survives the budget is
answered with the `VERSION_CONFLICT` domain-error response, any other
rejection propagates.  Returns (attempts executed, outcome). -/
def applyResourceCommand (versionConflictMaxRetries : Option Int)
    (attempt : Nat → AttemptOutcome) : Nat × Except String HttpResponse :=
  let result := withVersionConflictRetries attempt 0
    (effectiveRetries versionConflictMaxRetries)
  (result.1,
    match result.2 with
    | .success response => .ok response
    | .versionConflict =>
        .ok (domainErrorResponse ⟨"VERSION_CONFLICT", "Version conflict while appending event"⟩)
    | .failure message => .error message)

lemma withVersionConflictRetries_all_conflicts (attempt : Nat → AttemptOutcome)
    (start remaining : Nat)
    (h : ∀ i, start ≤ i → i ≤ start + remaining → attempt i = .versionConflict) :
    withVersionConflictRetries attempt start remaining =
      (start + remaining + 1, .versionConflict) := by
  induction remaining generalizing start with
  | zero => simp [withVersionConflictRetries, h start le_rfl (by omega)]
  | succ n ih =>
    have h0 : attempt start = .versionConflict := h start le_rfl (by omega)
    rw [withVersionConflictRetries, h0]
    rw [ih (start + 1) (fun i h1 h2 => h i (by omega) (by omega))]
    simp [Prod.ext_iff]
    omega

lemma withVersionConflictRetries_stops_at (attempt : Nat → AttemptOutcome)
    (start remaining k : Nat) (out : AttemptOutcome) (hk : k ≤ remaining)
    (hconf : ∀ i, start ≤ i → i < start + k → attempt i = .versionConflict)
    (hout : attempt (start + k) = out) (hne : out ≠ .versionConflict) :
    withVersionConflictRetries attempt start remaining = (start + k + 1, out) := by
  induction k generalizing start remaining with
  | zero =>
    simp only [Nat.add_zero] at hout
    cases remaining with
    | zero => simp [withVersionConflictRetries, hout]
    | succ n =>
      rw [withVersionConflictRetries, hout]
      cases out with
      | versionConflict => exact absurd rfl hne
      | success r => rfl
      | failure m => rfl
  | succ m ih =>
    cases remaining with
    | zero => omega
    | succ n =>
      have h0 : attempt start = .versionConflict := hconf start le_rfl (by omega)
      rw [withVersionConflictRetries, h0]
      rw [ih (start + 1) n (by omega) (fun i h1 h2 => hconf i (by omega) (by omega))
        (by rw [show start + 1 + m = start + (m + 1) by omega]; exact hout)]
      simp [Prod.ext_iff]
      omega

/-- Claim C6: the effective retry budget is `versionConflictMaxRetries` when
that is a finite non-negative number and 1 otherwise; when every attempt up
to the budget rejects with a version conflict the command executes exactly
`budget + 1` attempts (each restarting from rehydration) and responds with
the `VERSION_CONFLICT` domain error (HTTP 409); a successful attempt inside
the budget yields its response. -/
theorem applyResourceCommand_retry_spec (versionConflictMaxRetries : Option Int)
    (attempt : Nat → AttemptOutcome) :
    (∀ v : Int, versionConflictMaxRetries = some v → 0 ≤ v →
      effectiveRetries versionConflictMaxRetries = v.toNat)
    ∧ (∀ v : Int, versionConflictMaxRetries = some v → v < 0 →
      effectiveRetries versionConflictMaxRetries = 1)
    ∧ (versionConflictMaxRetries = none →
      effectiveRetries versionConflictMaxRetries = 1)
    ∧ ((∀ i, i ≤ effectiveRetries versionConflictMaxRetries →
        attempt i = .versionConflict) →
      applyResourceCommand versionConflictMaxRetries attempt =
        (effectiveRetries versionConflictMaxRetries + 1,
          .ok ⟨409, .domainErrorBody
            ⟨"VERSION_CONFLICT", "Version conflict while appending event"⟩⟩))
    ∧ (∀ k r, k ≤ effectiveRetries versionConflictMaxRetries →
      (∀ i, i < k → attempt i = .versionConflict) → attempt k = .success r →
      applyResourceCommand versionConflictMaxRetries attempt = (k + 1, .ok r)) := by
  refine ⟨?_, ?_, ?_, ?_, ?_⟩
  · intro v hv hnn
    subst hv
    simp [effectiveRetries, hnn]
  · intro v hv hneg
    subst hv
    simp [effectiveRetries, not_le.mpr hneg]
  · intro hnone
    subst hnone
    rfl
  · intro hall
    rw [applyResourceCommand, withVersionConflictRetries_all_conflicts attempt 0
      (effectiveRetries versionConflictMaxRetries)
      (fun i _ h2 => hall i (by omega))]
    simp [domainErrorResponse, statusOf]
  · intro k r hk hconf hout
    rw [applyResourceCommand, withVersionConflictRetries_stops_at attempt 0
      (effectiveRetries versionConflictMaxRetries) k (.success r) hk
      (fun i _ h2 => hconf i (by omega)) (by simpa using hout)
      (by intro hcontra; exact AttemptOutcome.noConfusion hcontra)]
    simp

/-- Concrete run of `applyResourceCommand_retry_spec`: with
`versionConflictMaxRetries = 2` and every attempt conflicting, the runner
executes 3 attempts and answers the 409 `VERSION_CONFLICT` response; with a
negative configured budget the fallback budget is 1 and a first-attempt
success is returned after exactly one attempt. -/
theorem applyResourceCommand_retry_spec_witness :
    (applyResourceCommand (some 2) (fun _ => .versionConflict) =
      (3, .ok ⟨409, .domainErrorBody
        ⟨"VERSION_CONFLICT", "Version conflict while appending event"⟩⟩))
    ∧ (applyResourceCommand (some (-7)) (fun _ => .success ⟨200, .json "ok"⟩) =
      (1, .ok ⟨200, .json "ok"⟩)) :=
  ⟨(applyResourceCommand_retry_spec (some 2) (fun _ => .versionConflict)).2.2.2.1
      (fun i _ => rfl),
    (applyResourceCommand_retry_spec (some (-7))
        (fun _ => .success ⟨200, .json "ok"⟩)).2.2.2.2 0 ⟨200, .json "ok"⟩
      (by decide) (fun i hi => absurd hi (by omega)) rfl⟩

/-- Outcome of the SQS `SendMessage` publish step. -/
inductive StepOutcome
  | ok
  | failure (name : String)
deriving DecidableEq, Repr

/-- `putSnapshot` from `event-store.ts`: the conditional put's
precondition-family rejections are swallowed (the snapshot already exists);
any other rejection propagates. -/
def putSnapshot (putOutcome : S3PutOutcome) : Except String Unit :=
  match putOutcome with
  | .ok => .ok ()
  | .error name => if isPreconditionFamily name then .ok () else .error name

/-- Error propagating out of the post-decision pipeline. -/
inductive PipelineError
  | append (e : AppendError)
  | publish (name : String)
  | snapshot (name : String)
deriving DecidableEq, Repr

/-- `appendAndPublishRecordedEvent` from the command runner:
`appendEvent(...).then(() => enqueueRecordedEvent(...)).then(...)` — there is
no catch around the enqueue, so a publish rejection propagates. -/
def appendAndPublishRecordedEvent (appendResult : Except AppendError Unit)
    (enqueueOutcome : StepOutcome) : Except PipelineError Unit :=
  match appendResult with
  | .error e => .error (.append e)
  | .ok _ =>
    match enqueueOutcome with
    | .ok => .ok ()
    | .failure name => .error (.publish name)

/-- `shouldSnapshot` from the command runner:
`threshold > 0 && nextVersion % threshold === 0`. -/
def shouldSnapshot (threshold nextVersion : Nat) : Bool :=
  decide (0 < threshold) && decide (nextVersion % threshold = 0)

/-- `maybeWriteSnapshot` from the command runner, condensed to whether the
threshold fired plus the conditional put's outcome; there is no catch, so a
`putSnapshot` rejection propagates. -/
def maybeWriteSnapshot (snapshotDue : Bool) (putOutcome : S3PutOutcome) :
    Except PipelineError Unit :=
  if snapshotDue then
    match putSnapshot putOutcome with
    | .ok _ => .ok ()
    | .error name => .error (.snapshot name)
  else .ok ()

/-- `applyResourceEvent` from the command runner, after an accepted decision:
append + publish, then the conditional snapshot, then the success response;
each `.then` link propagates any rejection of the previous step. -/
def applyResourceEvent (appendResult : Except AppendError Unit)
    (enqueueOutcome : StepOutcome) (snapshotDue : Bool)
    (snapshotPutOutcome : S3PutOutcome) (successResponse : HttpResponse) :
    Except PipelineError HttpResponse :=
  match appendAndPublishRecordedEvent appendResult enqueueOutcome with
  | .error e => .error e
  | .ok _ =>
    match maybeWriteSnapshot snapshotDue snapshotPutOutcome with
    | .error e => .error e
    | .ok _ => .ok successResponse

/-- Counterexample to claim C7 as stated: the append succeeds, the publish
step fails with a non-conflict transport error, and the command does not
return its success response — the publish failure surfaces. -/
theorem applyResourceEvent_publish_failure_surfaces :
    applyResourceEvent (.ok ()) (.failure "InternalError") false .ok
        ⟨201, .json "created"⟩ =
      .error (.publish "InternalError")
    ∧ applyResourceEvent (.ok ()) (.failure "InternalError") false .ok
        ⟨201, .json "created"⟩ ≠
      .ok ⟨201, .json "created"⟩ :=
  ⟨rfl, fun h => Except.noConfusion h⟩

/-- Claim C7 amended: after a successful append, a publish failure and a
non-precondition-family snapshot failure propagate to the caller instead of
the success response; only snapshot rejections named `PreconditionFailed` or
`ConditionalRequestConflict` are swallowed, and the success response is
returned exactly when the publish succeeds and the snapshot step either is
not due, succeeds, or fails within the precondition family. -/
theorem applyResourceEvent_best_effort_amended (successResponse : HttpResponse) :
    (∀ name snapshotDue putOutcome,
      applyResourceEvent (.ok ()) (.failure name) snapshotDue putOutcome successResponse =
        .error (.publish name))
    ∧ (∀ name, isPreconditionFamily name = false →
      applyResourceEvent (.ok ()) .ok true (.error name) successResponse =
        .error (.snapshot name))
    ∧ (∀ name, isPreconditionFamily name = true →
      applyResourceEvent (.ok ()) .ok true (.error name) successResponse =
        .ok successResponse)
    ∧ (∀ putOutcome,
      applyResourceEvent (.ok ()) .ok false putOutcome successResponse =
        .ok successResponse)
    ∧ (applyResourceEvent (.ok ()) .ok true .ok successResponse = .ok successResponse)
    ∧ (∀ e enqueueOutcome snapshotDue putOutcome,
      applyResourceEvent (.error e) enqueueOutcome snapshotDue putOutcome successResponse =
        .error (.append e)) := by
  refine ⟨fun name snapshotDue putOutcome => rfl, ?_, ?_, fun putOutcome => rfl, rfl,
    fun e enqueueOutcome snapshotDue putOutcome => rfl⟩
  · intro name hfam
    simp [applyResourceEvent, appendAndPublishRecordedEvent, maybeWriteSnapshot,
      putSnapshot, hfam]
  · intro name hfam
    simp [applyResourceEvent, appendAndPublishRecordedEvent, maybeWriteSnapshot,
      putSnapshot, hfam]

/-- Concrete run of `applyResourceEvent_best_effort_amended`: an
`AccessDenied` snapshot failure surfaces; a `PreconditionFailed` snapshot
failure is swallowed and the success response is returned. -/
theorem applyResourceEvent_best_effort_amended_witness :
    (applyResourceEvent (.ok ()) .ok true (.error "AccessDenied")
        ⟨201, .json "created"⟩ = .error (.snapshot "AccessDenied"))
    ∧ (applyResourceEvent (.ok ()) .ok true (.error "PreconditionFailed")
        ⟨201, .json "created"⟩ = .ok ⟨201, .json "created"⟩) :=
  ⟨(applyResourceEvent_best_effort_amended ⟨201, .json "created"⟩).2.1
      "AccessDenied" (by decide),
    (applyResourceEvent_best_effort_amended ⟨201, .json "created"⟩).2.2.1
      "PreconditionFailed" (by decide)⟩

end BolivarSpec
